import Mathlib

set_option autoImplicit false
set_option maxHeartbeats 1000000

/-
Verification development for aiomixer (src/aiomixer.c), a curses mixer
front-end for the NetBSD audio mixer device.  The definitions below are a
shallow embedding of the C program: the catalog construction performed by
`aiomixer_devinfo`, the lookup helpers `aiomixer_get_class`,
`aiomixer_get_control` and `find_root_control`, the viewport predicate
`control_within_bounds` and the scroll adjustment done in
`select_class_widget`, the focus dispatch of `select_class_widget` and the
key callbacks, and the level write path `set_level`.  C machine integers
are modelled as `Int`/`Nat` with explicit reductions modulo `2 ^ 32` where
the C performs 32-bit (unsigned) arithmetic, and fallible operations
(device ioctls, NULL-returning lookups) are modelled with `Option`.
-/

/-- C strings are modelled as lists of characters (the bytes before the
terminating NUL). -/
abbrev CStr := List Char

/-- One entry of `struct audio_mixer_enum`: a label and an ordinal. -/
structure EnumMember where
  label : CStr
  ord : Int
  deriving DecidableEq

/-- One entry of `struct audio_mixer_set`: a label and a bitmask. -/
structure SetMember where
  label : CStr
  mask : Int
  deriving DecidableEq

/-- The union payload of `struct aiomixer_control`: `audio_mixer_enum`,
`audio_mixer_set`, or `audio_mixer_value` (channel count and step delta). -/
inductive CtrlPayload where
  | e (members : List EnumMember)
  | s (members : List SetMember)
  | v (num_channels : Nat) (delta : Int)
  deriving DecidableEq

/-- `struct aiomixer_control`: name, device index, type payload and the
`next`/`prev` links copied from the descriptor.  (The widget pointers and
the runtime `current_chan`/`chans_unlocked` fields are carried separately
by the functions that use them.) -/
structure AiomixerControl where
  name : CStr
  dev : Int
  payload : CtrlPayload
  next : Int
  prev : Int
  deriving DecidableEq

/-- `struct aiomixer_class`: name, device-assigned class id, and the
ordered controls stored in it. -/
structure AiomixerClass where
  name : CStr
  id : Int
  controls : List AiomixerControl
  deriving DecidableEq

/-- The union in `struct mixer_devinfo`, tagged by `m.type`. -/
inductive DescUnion where
  | cls
  | e (members : List EnumMember)
  | s (members : List SetMember)
  | v (num_channels : Nat) (delta : Int)
  deriving DecidableEq

/-- One `struct mixer_devinfo` returned by `AUDIO_MIXER_DEVINFO`; its
device index is its position in the enumeration sequence. -/
structure MixerDevinfo where
  mixer_class : Int
  label : CStr
  un : DescUnion
  next : Int
  prev : Int
  deriving DecidableEq

/-- `aiomixer_get_class`: linear scan for the first class whose `id`
matches, NULL (`none`) when absent. -/
def aiomixer_get_class : List AiomixerClass → Int → Option AiomixerClass
  | [], _ => none
  | cl :: rest, cid => if cl.id = cid then some cl else aiomixer_get_class rest cid

/-- `aiomixer_get_control`: scan every class in order and every control in
order for the first control with the given device index. -/
def aiomixer_get_control (classes : List AiomixerClass) (dev : Int) :
    Option AiomixerControl :=
  ((classes.map (fun cl => cl.controls)).flatten).find? (fun c => c.dev == dev)

/-- Total number of controls stored in the catalog. -/
def total_controls (classes : List AiomixerClass) : Nat :=
  (classes.map (fun cl => cl.controls.length)).sum

/-- `find_root_control`: follow `prev` links until a control with
`prev == -1` is reached.  The C loop has no NULL check: a lookup that
fails dereferences NULL, and a `prev` cycle loops forever; both outcomes
are modelled as `none`.  Since `aiomixer_get_control` is deterministic, a
traversal that takes more steps than there are controls must revisit a
control and hence never terminates, so running with fuel
`total_controls + 1` classifies every run exactly. -/
def find_root_control (classes : List AiomixerClass) : Nat → Int → Option AiomixerControl
  | 0, _ => none
  | fuel + 1, dev =>
    match aiomixer_get_control classes dev with
    | none => none
    | some c => if c.prev = -1 then some c else find_root_control classes fuel c.prev

/-- `%.16s`: print at most 16 characters of the argument. -/
def fmt_prec16 (s : CStr) : CStr := s.take 16

/-- `%16s`: right-justify the argument in a field of width 16 (no
truncation, space padding on the left). -/
def fmt_width16 (s : CStr) : CStr := List.replicate (16 - s.length) ' ' ++ s

/-- The composite name written by `snprintf(name, 64, "%.16s.%16s\n", root,
label)` (the ENUM and VALUE cases of `aiomixer_devinfo`); `snprintf` keeps
at most 63 characters of output. -/
def composite_name_pad (root label : CStr) : CStr :=
  (fmt_prec16 root ++ ['.'] ++ fmt_width16 label ++ ['\n']).take 63

/-- The composite name written by `snprintf(name, 64, "%.16s.%.16s\n",
root, label)` (the SET case of `aiomixer_devinfo`). -/
def composite_name_trunc (root label : CStr) : CStr :=
  (fmt_prec16 root ++ ['.'] ++ fmt_prec16 label ++ ['\n']).take 63

/-- First pass of `aiomixer_devinfo`: collect class descriptors, capped at
`MAX_CLASSES = 16`.  (`memcpy` of the at-most-15-character label yields the
label itself as a C string.) -/
def pass1_step (classes : List AiomixerClass) (d : MixerDevinfo) : List AiomixerClass :=
  match d.un with
  | DescUnion.cls =>
    if classes.length < 16 then classes ++ [⟨d.label, d.mixer_class, []⟩] else classes
  | _ => classes

/-- Run the first pass over the whole descriptor sequence. -/
def pass1 : List AiomixerClass → List MixerDevinfo → List AiomixerClass
  | classes, [] => classes
  | classes, d :: rest => pass1 (pass1_step classes d) rest

/-- The control slot as it looks right after `class->controls[class->ncontrols++]`:
`struct aiomixer` is zero-initialized, so every field of the fresh slot is
still zero while the control's name is being computed.  Only the `dev` and
`prev` fields of the slot can be reached (by `aiomixer_get_control` /
`find_root_control` during the same descriptor's processing). -/
def slot0 : AiomixerControl := ⟨[], 0, CtrlPayload.v 0 0, 0, 0⟩

/-- Append a control to the first class with the given id (the class that
`aiomixer_get_class` returns). -/
def append_to_class : List AiomixerClass → Int → AiomixerControl → List AiomixerClass
  | [], _, _ => []
  | cl :: rest, cid, c =>
    if cl.id = cid then { cl with controls := cl.controls ++ [c] } :: rest
    else cl :: append_to_class rest cid c

/-- Compute the name stored for a control descriptor: the raw label when
`prev == -1`, otherwise the composite built from the root of the parent
chain.  A failed chain walk is the NULL dereference / infinite loop of
`find_root_control`, modelled as `none`.  (The C also contains a dead
`prev_ctrl != NULL` check at this point: `find_root_control` can never
return NULL, it crashes instead.) -/
def compute_name (withSlot : List AiomixerClass) (d : MixerDevinfo) (pad : Bool) :
    Option CStr :=
  if d.prev = -1 then some d.label
  else
    match find_root_control withSlot (total_controls withSlot + 1) d.prev with
    | none => none
    | some root =>
      some (if pad then composite_name_pad root.name d.label
            else composite_name_trunc root.name d.label)

/-- Add one control descriptor (index `i`) to the catalog: resolve its
class (drop the descriptor when unresolvable), enforce
`MAX_CONTROLS = 64`, allocate the slot, compute the name (with the fresh
zeroed slot already visible to lookups, as in the C), and fill the slot. -/
def add_control (classes : List AiomixerClass) (i : Nat) (d : MixerDevinfo)
    (payload : CtrlPayload) (pad : Bool) : Option (List AiomixerClass) :=
  match aiomixer_get_class classes d.mixer_class with
  | none => some classes
  | some cl =>
    if cl.controls.length < 64 then
      match compute_name (append_to_class classes d.mixer_class slot0) d pad with
      | none => none
      | some nm =>
        some (append_to_class classes d.mixer_class
          ⟨nm, (i : Int), payload, d.next, d.prev⟩)
    else some classes

/-- Second pass of `aiomixer_devinfo`, one descriptor: ENUM and SET copy
their member tables, VALUE replaces a zero `delta` with 8; class
descriptors are skipped. -/
def pass2_step (classes : List AiomixerClass) (i : Nat) (d : MixerDevinfo) :
    Option (List AiomixerClass) :=
  match d.un with
  | DescUnion.cls => some classes
  | DescUnion.e members => add_control classes i d (CtrlPayload.e members) true
  | DescUnion.s members => add_control classes i d (CtrlPayload.s members) false
  | DescUnion.v nch delta =>
    add_control classes i d (CtrlPayload.v nch (if delta = 0 then 8 else delta)) true

/-- Run the second pass from descriptor index `i` on. -/
def pass2 : List AiomixerClass → Nat → List MixerDevinfo → Option (List AiomixerClass)
  | classes, _, [] => some classes
  | classes, i, d :: rest =>
    match pass2_step classes i d with
    | none => none
    | some classes2 => pass2 classes2 (i + 1) rest

/-- `aiomixer_devinfo`: both passes over the descriptor enumeration;
`none` when the build crashes (NULL dereference in `find_root_control`)
or loops forever on a `prev` cycle. -/
def aiomixer_devinfo (descs : List MixerDevinfo) : Option (List AiomixerClass) :=
  pass2 (pass1 [] descs) 0 descs

/-- `true` for the descriptor types handled by the second pass. -/
def is_control_desc (d : MixerDevinfo) : Bool :=
  match d.un with
  | DescUnion.cls => false
  | _ => true

/-- Display height of one control as used by `control_within_bounds` and
widget layout: 3 rows for an enum or set buttonbox, `3 * num_channels`
rows for a value control's sliders. -/
def control_height (c : AiomixerControl) : Nat :=
  match c.payload with
  | CtrlPayload.e _ => 3
  | CtrlPayload.s _ => 3
  | CtrlPayload.v nch _ => 3 * nch

/-- The loop of `control_within_bounds`, starting at row `y` with `k`
controls still to go before the focused one: accumulate heights and fail
as soon as the running total reaches `max_y`. -/
def wb_go : List AiomixerControl → Int → Int → Nat → Bool
  | [], _, _, _ => true
  | c :: rest, maxY, y, k =>
    let y2 := y + (control_height c : Int)
    if maxY ≤ y2 then false
    else
      match k with
      | 0 => true
      | k + 1 => wb_go rest maxY y2 k

/-- `control_within_bounds`: `maxY` is `getmaxy(window) - 3` and the walk
starts at `y = 5`; an index above the scroll offset is out of bounds. -/
def control_within_bounds (ctrls : List AiomixerControl) (maxY : Int)
    (top index : Nat) : Bool :=
  if index < top then false
  else wb_go (ctrls.drop top) maxY 5 (index - top)

/-- The `while (!control_within_bounds(x, x->control_index)) x->top_control += 1;`
loop of `select_class_widget`, run with fuel.  `control_within_bounds` is
false for every offset above `index`, so if no offset in
`[top, index + 1]` satisfies it the C loop never terminates; `none`
therefore marks exactly the diverging runs. -/
def adjust_loop (ctrls : List AiomixerControl) (maxY : Int) (index : Nat) :
    Nat → Nat → Option Nat
  | _, 0 => none
  | top, fuel + 1 =>
    if control_within_bounds ctrls maxY top index then some top
    else adjust_loop ctrls maxY index (top + 1) fuel

/-- The scroll adjustment of `select_class_widget`: jump up when the focus
is above the window, scan down one control at a time when it is below. -/
def scroll_adjust (ctrls : List AiomixerControl) (maxY : Int) (top index : Nat) :
    Option Nat :=
  if top > index then some index
  else if top < index then adjust_loop ctrls maxY index top (index + 2 - top)
  else some top

/-- Sum of display heights of the controls from `top` to `index`
inclusive. -/
def heights_sum (ctrls : List AiomixerControl) (top index : Nat) : Int :=
  (((ctrls.drop top).take (index + 1 - top)).map
    (fun c => (control_height c : Int))).sum

/-- Where `select_class_widget` sends the focus: back to the class
selector (`select_class`) or to the widget of a control index. -/
inductive FocusTarget where
  | classLevel
  | widget (index : Nat)
  deriving DecidableEq

/-- The entry checks of `select_class_widget(x, index)`: a negative index
or an empty class re-activates the class selector; an index at or past
`ncontrols` recurses with index 0 (inlined here: with a non-empty class
that recursion lands on the widget of control 0). -/
def select_class_widget_entry (ncontrols : Nat) (index : Int) : FocusTarget :=
  if index < 0 ∨ ncontrols < 1 then FocusTarget.classLevel
  else if ncontrols ≤ index.toNat then
    if (0 : Int) < 0 ∨ ncontrols < 1 then FocusTarget.classLevel else FocusTarget.widget 0
  else FocusTarget.widget index.toNat

/-- After activating an enum or set buttonbox at control `idx`:
`result == -1` (escape) goes back to the class selector, otherwise
`select_class_widget(x, index + 1)`. -/
def advance_after_commit (ncontrols idx : Nat) (cancelled : Bool) : FocusTarget :=
  if cancelled then FocusTarget.classLevel
  else select_class_widget_entry ncontrols ((idx : Int) + 1)

/-- After activating the slider of `current_chan` on a value control (the
non-cancelled branch): move to the next channel of the same control, or
past the last channel reset the channel and go to `index + 1`. -/
def value_slider_advance (ncontrols idx current_chan num_channels : Nat) :
    Nat × FocusTarget :=
  if current_chan < num_channels - 1 then
    (current_chan + 1, select_class_widget_entry ncontrols (idx : Int))
  else (0, select_class_widget_entry ncontrols ((idx : Int) + 1))

/-- Conversion of a 32-bit unsigned value to a C `int` parameter
(two's complement, as on every supported platform). -/
def cint_of_uint (u : Nat) : Int :=
  if u < 2 ^ 31 then (u : Int) else (u : Int) - 2 ^ 32

/-- The expression `x->control_index - 1` on the `unsigned` field:
wraparound subtraction modulo `2 ^ 32`. -/
def uint32_sub_one (u : Nat) : Nat := (u + (2 ^ 32 - 1)) % 2 ^ 32

/-- `key_callback_slider`, `KEY_UP` case: move up one channel, or from
channel 0 call `select_class_widget(x, x->control_index - 1)` (unsigned
wraparound, passed to an `int` parameter). -/
def key_callback_slider_up (ncontrols control_index current_chan : Nat) :
    Nat × FocusTarget :=
  if 0 < current_chan then
    (current_chan - 1, select_class_widget_entry ncontrols (cint_of_uint control_index))
  else
    (0, select_class_widget_entry ncontrols (cint_of_uint (uint32_sub_one control_index)))

/-- `key_callback_control_buttons`, `KEY_UP` case:
`select_class_widget(x, x->control_index - 1)`. -/
def key_callback_buttons_up (ncontrols control_index : Nat) : FocusTarget :=
  select_class_widget_entry ncontrols (cint_of_uint (uint32_sub_one control_index))

/-- Conversion of a C `int` value to `unsigned` (reduction modulo
`2 ^ 32`), as forced on the left operand of `% x->nclasses`. -/
def uint_of_int (z : Int) : Nat := (z % 2 ^ 32).toNat

/-- `key_callback_class_buttons`, `KEY_LEFT`:
`x->class_index = (current - 1) % x->nclasses` where `current` is an `int`
and `nclasses` is `unsigned`, so the subtraction is converted to unsigned
before the modulo. -/
def class_buttons_left (nclasses : Nat) (current : Int) : Nat :=
  uint_of_int (current - 1) % nclasses

/-- `key_callback_class_buttons`, `KEY_RIGHT`:
`x->class_index = (current + 1) % x->nclasses`. -/
def class_buttons_right (nclasses : Nat) (current : Int) : Nat :=
  uint_of_int (current + 1) % nclasses

/-- `key_callback_control_buttons`, `KEY_LEFT`:
`current = (current - 1) % count` on `int` operands — C's `%` truncates
toward zero, so the result can be negative. -/
def control_buttons_left_index (count : Nat) (current : Int) : Int :=
  (current - 1).tmod (count : Int)

/-- `key_callback_control_buttons`, `KEY_RIGHT`:
`current = (current + 1) % count` on `int` operands. -/
def control_buttons_right_index (count : Nat) (current : Int) : Int :=
  (current + 1).tmod (count : Int)

/-- The array access `member[current]` (`.ord` or `.mask`) performed right
after the index update; `none` is an out-of-bounds access. -/
def member_access (members : List Int) (idx : Int) : Option Int :=
  if idx < 0 then none else members.get? idx.toNat

/-- Result of one `set_level` call: the device's per-channel levels and
the slider widgets' displayed values afterwards. -/
structure SetLevelResult where
  dev_levels : List Int
  widgets : List Int
  deriving DecidableEq

/-- `set_level(fd, control, level, channel)`.  Channels locked
(`!chans_unlocked`): fill the write buffer with `level` for every channel
and update every slider widget, then issue one `AUDIO_MIXER_WRITE`.
Channels unlocked: `AUDIO_MIXER_READ` the current levels first (abort on
failure), overwrite only `channel` in the buffer and its widget, then
write all channels back.  A failed write leaves the device in its
last-known state, but the widgets have already been updated. -/
def set_level (read_ok write_ok chans_unlocked : Bool) (num_channels : Nat)
    (dev_levels widgets : List Int) (level : Int) (channel : Nat) : SetLevelResult :=
  if !chans_unlocked then
    let buf := List.replicate num_channels level
    let widgets2 := (List.range num_channels).foldl (fun w i => w.set i level) widgets
    if write_ok then ⟨buf, widgets2⟩ else ⟨dev_levels, widgets2⟩
  else
    if !read_ok then ⟨dev_levels, widgets⟩
    else
      let buf := dev_levels.set channel level
      let widgets2 := widgets.set channel level
      if write_ok then ⟨buf, widgets2⟩ else ⟨dev_levels, widgets2⟩

/-- A descriptor sequence whose second entry is an enum control whose
`prev` (5) names a device index with no control: one class with id 0, then
one enum control in that class. -/
def c5_input : List MixerDevinfo :=
  [⟨0, "outputs".toList, DescUnion.cls, -1, -1⟩,
   ⟨0, "source".toList, DescUnion.e [⟨"mic".toList, 0⟩], -1, 5⟩]

/-- A descriptor sequence with a value control whose `prev` (9) names a
missing control. -/
def c7_input : List MixerDevinfo :=
  [⟨0, "record".toList, DescUnion.cls, -1, -1⟩,
   ⟨0, "volume".toList, DescUnion.v 2 0, -1, 9⟩]

/-- One class, a root enum control `master` (device index 1), and an enum
control `mute` (device index 2) whose parent chain root is `master`. -/
def c6_input : List MixerDevinfo :=
  [⟨0, "outputs".toList, DescUnion.cls, -1, -1⟩,
   ⟨0, "master".toList, DescUnion.e [⟨"on".toList, 0⟩], -1, -1⟩,
   ⟨0, "mute".toList, DescUnion.e [⟨"off".toList, 0⟩], -1, 1⟩]

/-- An 8-channel value control: display height `3 * 8 = 24` rows. -/
def tall_control : AiomixerControl := ⟨"vol".toList, 1, CtrlPayload.v 8 8, -1, -1⟩

/-- An enum control of display height 3. -/
def small_control : AiomixerControl := ⟨"mix".toList, 0, CtrlPayload.e [], -1, -1⟩

/-- A class descriptor followed by an enum descriptor whose class id 99
resolves to no class. -/
def c7_witness_input : List MixerDevinfo :=
  [⟨0, "outs".toList, DescUnion.cls, -1, -1⟩,
   ⟨99, "gain".toList, DescUnion.e [], -1, -1⟩]

/-- The catalog built from `c7_witness_input`: just the class, the control
descriptor is dropped. -/
def c7_witness_cat : List AiomixerClass := [⟨"outs".toList, 0, []⟩]

/- ------------------------------------------------------------------ -/
/- Helper lemmas.                                                      -/
/- ------------------------------------------------------------------ -/

theorem foldl_set_length (level : Int) :
    ∀ (n : Nat) (w0 : List Int),
      ((List.range n).foldl (fun w i => w.set i level) w0).length = w0.length := by
  intro n
  induction n with
  | zero => intro w0; rfl
  | succ n ih =>
    intro w0
    rw [List.range_succ, List.foldl_append]
    simp only [List.foldl_cons, List.foldl_nil, List.length_set]
    exact ih w0

theorem foldl_set_get? (level : Int) :
    ∀ (n : Nat) (w0 : List Int) (j : Nat), j < n → j < w0.length →
      ((List.range n).foldl (fun w i => w.set i level) w0).get? j = some level := by
  intro n
  induction n with
  | zero => intro w0 j hj _; omega
  | succ n ih =>
    intro w0 j hj hw
    rw [List.range_succ, List.foldl_append]
    simp only [List.foldl_cons, List.foldl_nil]
    by_cases hjn : j = n
    · subst hjn
      exact List.get?_set_eq_of_lt _ (by rw [foldl_set_length]; exact hw)
    · rw [List.get?_set_ne _ _ (fun h => hjn h.symm)]
      exact ih w0 j (by omega) hw

theorem wb_go_sum : ∀ (l : List AiomixerControl) (maxY y : Int) (k : Nat),
    k < l.length → wb_go l maxY y k = true →
    y + ((l.take (k + 1)).map (fun c => (control_height c : Int))).sum < maxY := by
  intro l
  induction l with
  | nil => intro maxY y k hk; simp at hk
  | cons c rest ih =>
    intro maxY y k hk hwb
    unfold wb_go at hwb
    by_cases hy : maxY ≤ y + (control_height c : Int)
    · rw [if_pos hy] at hwb; exact absurd hwb (by simp)
    · rw [if_neg hy] at hwb
      push_neg at hy
      cases k with
      | zero => simpa using hy
      | succ k2 =>
        have hrec := ih maxY (y + (control_height c : Int)) k2
          (by simpa using Nat.lt_of_succ_lt_succ hk) hwb
        rw [List.take_succ_cons, List.map_cons, List.sum_cons]
        linarith

theorem within_bounds_false_above (ctrls : List AiomixerControl) (maxY : Int)
    (top index : Nat) (h : index < top) :
    control_within_bounds ctrls maxY top index = false := by
  unfold control_within_bounds
  rw [if_pos h]

theorem adjust_loop_finds (ctrls : List AiomixerControl) (maxY : Int) (index : Nat) :
    ∀ (fuel top : Nat), top ≤ index → index - top < fuel →
      control_within_bounds ctrls maxY index index = true →
      ∃ t, adjust_loop ctrls maxY index top fuel = some t
        ∧ control_within_bounds ctrls maxY t index = true := by
  intro fuel
  induction fuel with
  | zero => intro top h1 h2 _; omega
  | succ f ih =>
    intro top h1 h2 hidx
    unfold adjust_loop
    by_cases hwb : control_within_bounds ctrls maxY top index = true
    · exact ⟨top, by rw [if_pos hwb], hwb⟩
    · rw [if_neg hwb]
      have hne : top ≠ index := fun he => hwb (he ▸ hidx)
      exact ih (top + 1) (by omega) (by omega) hidx

/- ------------------------------------------------------------------ -/
/- Claim theorems.                                                     -/
/- ------------------------------------------------------------------ -/

/-- C1: `set_level` with the channel-lock flag indicating channels move
together (`chans_unlocked` false) broadcasts the new level to every
channel of the control in one device write; with independent channels
(`chans_unlocked` true) it re-reads the device's current levels first,
overwrites only the target channel, and writes all channels back, so every
non-target channel equals its most recently read device value. -/
theorem c1_set_level_lock_semantics (n : Nat) (devL wids : List Int) (level : Int)
    (ch : Nat) (hlen : devL.length = n) (hch : ch < n) :
    (set_level true true false n devL wids level ch).dev_levels = List.replicate n level
    ∧ (set_level true true true n devL wids level ch).dev_levels.get? ch = some level
    ∧ ∀ i, i ≠ ch → (set_level true true true n devL wids level ch).dev_levels.get? i
        = devL.get? i := by
  refine ⟨rfl, ?_, ?_⟩
  · show (devL.set ch level).get? ch = some level
    exact List.get?_set_eq_of_lt _ (by omega)
  · intro i hi
    show (devL.set ch level).get? i = devL.get? i
    exact List.get?_set_ne _ _ (fun h => hi h.symm)

theorem c1_witness :
    (set_level true true false 2 [100, 100] [100, 100] 8 1).dev_levels
      = List.replicate 2 8 :=
  (c1_set_level_lock_semantics 2 [100, 100] [100, 100] 8 1 rfl (by decide)).1

/-- C3 counterexample: a failed `AUDIO_MIXER_WRITE` (locked channels,
lowering [100, 100] to 0) leaves the device in its last-known state but
the slider widgets have already been set to the new level 0 — the display
is not left unchanged as the claim states. -/
theorem c3_counterexample :
    (set_level true false false 2 [100, 100] [100, 100] 0 0).dev_levels = [100, 100]
    ∧ (set_level true false false 2 [100, 100] [100, 100] 0 0).widgets = [0, 0]
    ∧ ([0, 0] : List Int) ≠ [100, 100] :=
  ⟨rfl, rfl, by decide⟩

/-- C3 (amended): a failed device operation in `set_level` reports a
warning and aborts the update, leaving the device in its last-known state;
on a read failure the display is also unchanged, but on a write failure
the slider widgets have already been updated, so the failed value is
shown at the adjusted channel. -/
theorem c3_failure_aborts_device_write (r u : Bool) (n : Nat) (devL wids : List Int)
    (level : Int) (ch : Nat) (hw : ch < wids.length) (hn : ch < n) :
    (set_level r false u n devL wids level ch).dev_levels = devL
    ∧ (∀ w : Bool, set_level false w true n devL wids level ch = ⟨devL, wids⟩)
    ∧ (u = true → r = true →
        (set_level r false u n devL wids level ch).widgets.get? ch = some level)
    ∧ (u = false →
        (set_level r false u n devL wids level ch).widgets.get? ch = some level) := by
  refine ⟨?_, ?_, ?_, ?_⟩
  · cases u <;> cases r <;> rfl
  · intro w; cases w <;> rfl
  · intro hu hr
    subst hu; subst hr
    show (wids.set ch level).get? ch = some level
    exact List.get?_set_eq_of_lt _ hw
  · intro hu
    subst hu
    cases r <;> exact foldl_set_get? level n wids ch hn hw

theorem c3_witness :
    (set_level true false true 2 [100, 100] [50, 50] 7 1).dev_levels = [100, 100] :=
  (c3_failure_aborts_device_write true true 2 [100, 100] [50, 50] 7 1
    (by decide) (by decide)).1

/-- C2 counterexample: in a class with one control, committing that
control advances with `index + 1 = 1 ≥ ncontrols`, and
`select_class_widget` recurses with index 0 — focus wraps around to
control 0 instead of transitioning to the class selector. -/
theorem c2_counterexample :
    advance_after_commit 1 0 false = FocusTarget.widget 0
    ∧ FocusTarget.widget 0 ≠ FocusTarget.classLevel :=
  ⟨by rfl, by decide⟩

/-- C2 (amended): after committing an Enum/Set control, or finishing the
last channel of a Value control, focus advances to control `index + 1`;
when that index reaches the class's control count focus wraps around to
control 0 (never to the class selector and never to an out-of-range
index). -/
theorem c2_advance_wraps (n idx : Nat) (hn : 1 ≤ n) :
    (idx + 1 < n → advance_after_commit n idx false = FocusTarget.widget (idx + 1))
    ∧ (n ≤ idx + 1 → advance_after_commit n idx false = FocusTarget.widget 0)
    ∧ (∀ j, advance_after_commit n idx false = FocusTarget.widget j → j < n)
    ∧ (∀ ch nch, nch ≤ ch + 1 →
        value_slider_advance n idx ch nch = (0, advance_after_commit n idx false)) := by
  have hcast : ((idx : Int) + 1) = ((idx + 1 : Nat) : Int) := by push_cast; ring
  have hent : advance_after_commit n idx false
      = select_class_widget_entry n ((idx + 1 : Nat) : Int) := by
    unfold advance_after_commit
    rw [if_neg (by simp), hcast]
  have hspec : ∀ k : Nat, select_class_widget_entry n (k : Int)
      = if n ≤ k then FocusTarget.widget 0 else FocusTarget.widget k := by
    intro k
    unfold select_class_widget_entry
    rw [if_neg (by push_neg; exact ⟨Int.natCast_nonneg k, by omega⟩)]
    rw [Int.toNat_natCast]
    by_cases hk : n ≤ k
    · rw [if_pos hk, if_pos hk, if_neg (by push_neg; exact ⟨le_refl 0, by omega⟩)]
    · rw [if_neg hk, if_neg hk]
  refine ⟨?_, ?_, ?_, ?_⟩
  · intro h
    rw [hent, hspec, if_neg (by omega)]
  · intro h
    rw [hent, hspec, if_pos h]
  · intro j hj
    rw [hent, hspec] at hj
    by_cases hk : n ≤ idx + 1
    · rw [if_pos hk] at hj
      cases hj; omega
    · rw [if_neg hk] at hj
      cases hj; omega
  · intro ch nch h
    unfold value_slider_advance
    rw [if_neg (by omega), hent, hcast]

theorem c2_witness : advance_after_commit 2 0 false = FocusTarget.widget 1 :=
  (c2_advance_wraps 2 0 (by decide)).1 (by decide)

/-- C10: a requested control index below zero (pressing up on the first
control or on channel 0 of a first Value control — the unsigned
`control_index - 1` wraps and is received as `-1` by the `int`
parameter), or entering a class with zero controls, re-activates the
class selector, and `select_class_widget` never focuses an out-of-range
control slot. -/
theorem c10_retreat_reactivates_class_selector (n : Nat) :
    (∀ idx : Int, select_class_widget_entry 0 idx = FocusTarget.classLevel)
    ∧ key_callback_slider_up n 0 0 = (0, FocusTarget.classLevel)
    ∧ key_callback_buttons_up n 0 = FocusTarget.classLevel
    ∧ (∀ (idx : Int) (j : Nat),
        select_class_widget_entry n idx = FocusTarget.widget j → j < n) := by
  have hm1 : cint_of_uint (uint32_sub_one 0) = -1 := by
    norm_num [cint_of_uint, uint32_sub_one]
  have hneg : select_class_widget_entry n (-1) = FocusTarget.classLevel := by
    unfold select_class_widget_entry
    rw [if_pos (Or.inl (by norm_num))]
  refine ⟨?_, ?_, ?_, ?_⟩
  · intro idx
    unfold select_class_widget_entry
    rw [if_pos (Or.inr (by norm_num))]
  · unfold key_callback_slider_up
    rw [if_neg (by omega), hm1, hneg]
  · unfold key_callback_buttons_up
    rw [hm1, hneg]
  · intro idx j hj
    unfold select_class_widget_entry at hj
    by_cases h1 : idx < 0 ∨ n < 1
    · rw [if_pos h1] at hj; cases hj
    · rw [if_neg h1] at hj
      push_neg at h1
      by_cases h2 : n ≤ idx.toNat
      · rw [if_pos h2, if_neg (by push_neg; exact ⟨le_refl 0, by omega⟩)] at hj
        cases hj; omega
      · rw [if_neg h2] at hj
        cases hj; omega

theorem c10_witness : key_callback_slider_up 3 0 0 = (0, FocusTarget.classLevel) :=
  (c10_retreat_reactivates_class_selector 3).2.1

/-- C8: with 3 classes, a left keypress at class 0 computes
`(current - 1) % nclasses` with the `int` operand converted to `unsigned`,
i.e. `(2^32 - 1) % 3 = 0`: the selection stays at class 0 instead of
moving to class `n - 1 = 2` as the claim (and the obvious intent of a
modular cycle) requires.  A right keypress behaves as claimed. -/
theorem c8_left_from_zero_misses_last_class :
    class_buttons_left 3 0 = 0 ∧ class_buttons_left 3 0 ≠ 2
    ∧ class_buttons_right 3 0 = 1 := by
  decide

/-- C9: on an active enum control with 3 members and member 0 highlighted,
a left keypress computes `current = (0 - 1) % 3 = -1` (C `%` on `int`
truncates toward zero), so the code reads `member[-1]` out of bounds and
writes that garbage value — it does not select member `(0 - 1) mod 3 = 2`.
A right keypress stays in range. -/
theorem c9_left_from_zero_reads_out_of_bounds :
    control_buttons_left_index 3 0 = -1
    ∧ member_access [0, 1, 2] (control_buttons_left_index 3 0) = none
    ∧ control_buttons_right_index 3 0 = 1 := by
  decide

/-- C4 counterexample: a class whose only control is an 8-channel value
control (height 24 rows) on a 20-row screen (`max_y = 17`).  With
`T = F = 0` the scroll-adjustment of `select_class_widget` makes no change
(neither `F < T` nor `F > T`), yet `within_bounds(T, F)` is false — the
adjustment does not settle with `within_bounds` true as the claim states.
(And had `T < F` held, the `while` loop could not terminate, since no
offset makes an over-tall focused control fit.) -/
theorem c4_counterexample :
    scroll_adjust [tall_control] 17 0 0 = some 0
    ∧ control_within_bounds [tall_control] 17 0 0 = false :=
  ⟨rfl, rfl⟩

/-- C4 (amended): if `within_bounds(T, F)` is true then the display
heights of controls `T..F` sum to less than the row budget
(`5 + sum < max_y`); and provided the focused control fits on its own
(`within_bounds(F, F)` true), the scroll adjustment settles at an offset
`T'` with `within_bounds(T', F)` true. -/
theorem c4_within_bounds_sum_and_adjust (ctrls : List AiomixerControl) (maxY : Int)
    (top index : Nat) (hlen : index < ctrls.length) :
    (control_within_bounds ctrls maxY top index = true →
      5 + heights_sum ctrls top index < maxY)
    ∧ (control_within_bounds ctrls maxY index index = true →
      ∃ t, scroll_adjust ctrls maxY top index = some t
        ∧ control_within_bounds ctrls maxY t index = true) := by
  constructor
  · intro hwb
    unfold control_within_bounds at hwb
    by_cases hti : index < top
    · rw [if_pos hti] at hwb; cases hwb
    · rw [if_neg hti] at hwb
      push_neg at hti
      have hsum := wb_go_sum (ctrls.drop top) maxY 5 (index - top)
        (by rw [List.length_drop]; omega) hwb
      unfold heights_sum
      have harith : index - top + 1 = index + 1 - top := by omega
      rw [← harith]
      exact hsum
  · intro hidx
    unfold scroll_adjust
    by_cases h1 : top > index
    · rw [if_pos h1]
      exact ⟨index, rfl, hidx⟩
    · rw [if_neg h1]
      by_cases h2 : top < index
      · rw [if_pos h2]
        exact adjust_loop_finds ctrls maxY index (index + 2 - top) top
          (by omega) (by omega) hidx
      · rw [if_neg h2]
        have he : top = index := by omega
        exact ⟨top, rfl, he ▸ hidx⟩

theorem c4_witness :
    ∃ t, scroll_adjust [small_control] 30 0 0 = some t
      ∧ control_within_bounds [small_control] 30 t 0 = true :=
  (c4_within_bounds_sum_and_adjust [small_control] 30 0 0 (by decide)).2 (by rfl)

/-- C6 counterexample: building the catalog from `c6_input`, the control
at device index 2 (label `mute`, parent chain root `master`) is stored
with name `"master." ++ 12 spaces ++ "mute" ++ "\n"` — the `%16s`
conversion pads the label to width 16 and the format string appends a
newline — which differs from the exact `"master.mute"` the claim
requires. -/
theorem c6_counterexample :
    ((aiomixer_devinfo c6_input).bind fun cat =>
        (aiomixer_get_control cat 2).map fun c => c.name)
      = some (composite_name_pad ("master".toList) ("mute".toList))
    ∧ composite_name_pad ("master".toList) ("mute".toList) ≠ "master.mute".toList :=
  ⟨by rfl, by decide⟩

/-- C6 (amended): for a control with a parent, the stored composite name
is the parent chain root's name truncated to 16 characters, a `.`, then
the descriptor's label — left-padded with spaces to width 16 for Enum and
Value controls, truncated to 16 characters for Set controls — and a
trailing newline, the whole truncated to 63 characters (shown here for
device-limit-sized names, length ≤ 15, where no truncation occurs); when
no parent exists the name is the raw descriptor label. -/
theorem c6_composite_name_format (root label : CStr)
    (hr : root.length ≤ 15) (hl : label.length ≤ 15) :
    composite_name_pad root label
      = root ++ ['.'] ++ List.replicate (16 - label.length) ' ' ++ label ++ ['\n']
    ∧ composite_name_trunc root label = root ++ ['.'] ++ label ++ ['\n']
    ∧ (∀ (withSlot : List AiomixerClass) (d : MixerDevinfo), d.prev = -1 →
        ∀ pad, compute_name withSlot d pad = some d.label) := by
  have hr16 : root.take 16 = root := List.take_all_of_le (by omega)
  have hl16 : label.take 16 = label := List.take_all_of_le (by omega)
  refine ⟨?_, ?_, ?_⟩
  · unfold composite_name_pad fmt_prec16 fmt_width16
    rw [hr16]
    rw [List.take_of_length_le (by
      simp only [List.length_append, List.length_replicate, List.length_cons,
        List.length_nil]
      omega)]
    simp [List.append_assoc]
  · unfold composite_name_trunc fmt_prec16
    rw [hr16, hl16]
    apply List.take_of_length_le
    simp only [List.length_append, List.length_cons, List.length_nil]
    omega
  · intro withSlot d hprev pad
    unfold compute_name
    rw [if_pos hprev]

theorem c6_witness :
    composite_name_pad ("master".toList) ("mute".toList)
      = "master".toList ++ ['.']
        ++ List.replicate (16 - ("mute".toList).length) ' '
        ++ "mute".toList ++ ['\n'] :=
  (c6_composite_name_format ("master".toList) ("mute".toList)
    (by decide) (by decide)).1

/- Lemmas about catalog construction, used for C5 and C7. -/

theorem pass1_step_length_le (classes : List AiomixerClass) (d : MixerDevinfo)
    (h : classes.length ≤ 16) : (pass1_step classes d).length ≤ 16 := by
  unfold pass1_step
  split
  · split
    · simp; omega
    · exact h
  · exact h

theorem pass1_length_le : ∀ (descs : List MixerDevinfo) (classes : List AiomixerClass),
    classes.length ≤ 16 → (pass1 classes descs).length ≤ 16 := by
  intro descs
  induction descs with
  | nil => intro classes h; exact h
  | cons d rest ih =>
    intro classes h
    exact ih (pass1_step classes d) (pass1_step_length_le classes d h)

theorem pass1_step_controls_nil (classes : List AiomixerClass) (d : MixerDevinfo)
    (h : ∀ cl ∈ classes, cl.controls = []) :
    ∀ cl ∈ pass1_step classes d, cl.controls = [] := by
  intro cl hcl
  unfold pass1_step at hcl
  split at hcl
  · split at hcl
    · rcases List.mem_append.mp hcl with h1 | h1
      · exact h cl h1
      · simp only [List.mem_singleton] at h1
        subst h1
        rfl
    · exact h cl hcl
  · exact h cl hcl

theorem pass1_controls_nil : ∀ (descs : List MixerDevinfo)
    (classes : List AiomixerClass),
    (∀ cl ∈ classes, cl.controls = []) →
    ∀ cl ∈ pass1 classes descs, cl.controls = [] := by
  intro descs
  induction descs with
  | nil => intro classes h; exact h
  | cons d rest ih =>
    intro classes h
    exact ih (pass1_step classes d) (pass1_step_controls_nil classes d h)

theorem append_to_class_map_id : ∀ (classes : List AiomixerClass) (cid : Int)
    (c : AiomixerControl),
    (append_to_class classes cid c).map (fun cl => cl.id)
      = classes.map (fun cl => cl.id) := by
  intro classes
  induction classes with
  | nil => intro cid c; rfl
  | cons cl rest ih =>
    intro cid c
    unfold append_to_class
    by_cases hid : cl.id = cid
    · rw [if_pos hid]; simp
    · rw [if_neg hid]; simp [ih]

theorem get_class_none_congr : ∀ (classes classes' : List AiomixerClass) (cid : Int),
    classes.map (fun cl => cl.id) = classes'.map (fun cl => cl.id) →
    aiomixer_get_class classes cid = none →
    aiomixer_get_class classes' cid = none := by
  intro classes
  induction classes with
  | nil =>
    intro classes' cid h _
    cases classes' with
    | nil => rfl
    | cons cl rest => simp at h
  | cons cl rest ih =>
    intro classes' cid h hn
    cases classes' with
    | nil => rfl
    | cons cl' rest' =>
      simp only [List.map_cons, List.cons.injEq] at h
      unfold aiomixer_get_class at hn ⊢
      by_cases hid : cl.id = cid
      · rw [if_pos hid] at hn; cases hn
      · rw [if_neg hid] at hn
        rw [if_neg (by rw [← h.1]; exact hid)]
        exact ih rest' cid h.2 hn

theorem append_mem_cases : ∀ (classes : List AiomixerClass) (cid : Int)
    (c : AiomixerControl) (cl0 : AiomixerClass),
    aiomixer_get_class classes cid = some cl0 →
    ∀ cl' ∈ append_to_class classes cid c,
      cl' ∈ classes ∨ cl' = { cl0 with controls := cl0.controls ++ [c] } := by
  intro classes
  induction classes with
  | nil => intro cid c cl0 hg; cases hg
  | cons cl rest ih =>
    intro cid c cl0 hg cl' hcl'
    unfold aiomixer_get_class at hg
    unfold append_to_class at hcl'
    by_cases hid : cl.id = cid
    · rw [if_pos hid] at hg hcl'
      have he0 : cl0 = cl := (Option.some.inj hg).symm
      subst he0
      rcases List.mem_cons.mp hcl' with he | hr
      · right; exact he
      · left; exact List.mem_cons_of_mem _ hr
    · rw [if_neg hid] at hg hcl'
      rcases List.mem_cons.mp hcl' with he | hr
      · left; rw [he]; exact List.mem_cons_self _ _
      · rcases ih cid c cl0 hg cl' hr with h1 | h1
        · left; exact List.mem_cons_of_mem _ h1
        · right; exact h1

theorem append_dev_ne (t : Int) : ∀ (classes : List AiomixerClass) (cid : Int)
    (c : AiomixerControl), c.dev ≠ t →
    (∀ cl ∈ classes, ∀ ctl ∈ cl.controls, ctl.dev ≠ t) →
    ∀ cl ∈ append_to_class classes cid c, ∀ ctl ∈ cl.controls, ctl.dev ≠ t := by
  intro classes
  induction classes with
  | nil => intro cid c _ _ cl hcl; cases hcl
  | cons cl0 rest ih =>
    intro cid c hc h cl hcl
    unfold append_to_class at hcl
    by_cases hid : cl0.id = cid
    · rw [if_pos hid] at hcl
      rcases List.mem_cons.mp hcl with he | hr
      · intro ctl hctl
        rw [he] at hctl
        rcases List.mem_append.mp hctl with h1 | h1
        · exact h cl0 (List.mem_cons_self _ _) ctl h1
        · simp only [List.mem_singleton] at h1
          rw [h1]; exact hc
      · exact h cl (List.mem_cons_of_mem _ hr)
    · rw [if_neg hid] at hcl
      rcases List.mem_cons.mp hcl with he | hr
      · rw [he]; exact h cl0 (List.mem_cons_self _ _)
      · exact ih cid c hc (fun cl2 h2 => h cl2 (List.mem_cons_of_mem _ h2)) cl hr

theorem add_control_spec (classes : List AiomixerClass) (i : Nat) (d : MixerDevinfo)
    (payload : CtrlPayload) (pad : Bool) (classes2 : List AiomixerClass)
    (h : add_control classes i d payload pad = some classes2) :
    classes2 = classes
    ∨ ∃ (c : AiomixerControl) (cl0 : AiomixerClass), c.dev = (i : Int)
        ∧ aiomixer_get_class classes d.mixer_class = some cl0
        ∧ cl0.controls.length < 64
        ∧ classes2 = append_to_class classes d.mixer_class c := by
  unfold add_control at h
  split at h
  · left; exact (Option.some.inj h).symm
  · rename_i cl0 hg
    split at h
    · rename_i hlen
      split at h
      · cases h
      · rename_i nm hn
        right
        exact ⟨⟨nm, (i : Int), payload, d.next, d.prev⟩, cl0, rfl, hg, hlen,
          (Option.some.inj h).symm⟩
    · left; exact (Option.some.inj h).symm

theorem pass2_step_spec (classes : List AiomixerClass) (i : Nat) (d : MixerDevinfo)
    (classes2 : List AiomixerClass) (h : pass2_step classes i d = some classes2) :
    classes2 = classes
    ∨ ∃ (c : AiomixerControl) (cl0 : AiomixerClass), c.dev = (i : Int)
        ∧ aiomixer_get_class classes d.mixer_class = some cl0
        ∧ cl0.controls.length < 64
        ∧ classes2 = append_to_class classes d.mixer_class c := by
  unfold pass2_step at h
  split at h
  · left; exact (Option.some.inj h).symm
  · exact add_control_spec _ _ _ _ _ _ h
  · exact add_control_spec _ _ _ _ _ _ h
  · exact add_control_spec _ _ _ _ _ _ h

theorem pass2_ids : ∀ (rest : List MixerDevinfo) (i : Nat)
    (classes cat : List AiomixerClass), pass2 classes i rest = some cat →
    cat.map (fun cl => cl.id) = classes.map (fun cl => cl.id) := by
  intro rest
  induction rest with
  | nil =>
    intro i classes cat h
    unfold pass2 at h
    cases h
    rfl
  | cons d rest2 ih =>
    intro i classes cat h
    unfold pass2 at h
    split at h
    · cases h
    · rename_i classes2 hstep
      have h2 := ih (i + 1) classes2 cat h
      rcases pass2_step_spec classes i d classes2 hstep with he | ⟨c, cl0, _, _, _, he⟩
      · rw [h2, he]
      · rw [h2, he, append_to_class_map_id]

theorem pass2_len : ∀ (rest : List MixerDevinfo) (i : Nat)
    (classes cat : List AiomixerClass), pass2 classes i rest = some cat →
    (∀ cl ∈ classes, cl.controls.length ≤ 64) →
    ∀ cl ∈ cat, cl.controls.length ≤ 64 := by
  intro rest
  induction rest with
  | nil =>
    intro i classes cat h hinv
    unfold pass2 at h
    cases h
    exact hinv
  | cons d rest2 ih =>
    intro i classes cat h hinv
    unfold pass2 at h
    split at h
    · cases h
    · rename_i classes2 hstep
      apply ih (i + 1) classes2 cat h
      rcases pass2_step_spec classes i d classes2 hstep with he | ⟨c, cl0, _, hg, hlen, he⟩
      · rw [he]; exact hinv
      · rw [he]
        intro cl hcl
        rcases append_mem_cases classes d.mixer_class c cl0 hg cl hcl with h1 | h1
        · exact hinv cl h1
        · rw [h1]
          simp only [List.length_append, List.length_cons, List.length_nil]
          omega

theorem pass2_dev_ne : ∀ (rest : List MixerDevinfo) (i : Nat)
    (classes cat : List AiomixerClass) (t : Int),
    pass2 classes i rest = some cat →
    (∀ j : Nat, i ≤ j → t ≠ (j : Int)) →
    (∀ cl ∈ classes, ∀ ctl ∈ cl.controls, ctl.dev ≠ t) →
    ∀ cl ∈ cat, ∀ ctl ∈ cl.controls, ctl.dev ≠ t := by
  intro rest
  induction rest with
  | nil =>
    intro i classes cat t h _ hinv
    unfold pass2 at h
    cases h
    exact hinv
  | cons d rest2 ih =>
    intro i classes cat t h hfresh hinv
    unfold pass2 at h
    split at h
    · cases h
    · rename_i classes2 hstep
      apply ih (i + 1) classes2 cat t h (fun j hj => hfresh j (by omega))
      rcases pass2_step_spec classes i d classes2 hstep with he | ⟨c, cl0, hdev, hg, hlen, he⟩
      · rw [he]; exact hinv
      · rw [he]
        apply append_dev_ne t classes d.mixer_class c ?_ hinv
        rw [hdev]
        exact fun hc => hfresh i (le_refl i) hc.symm

theorem pass2_unresolvable : ∀ (rest : List MixerDevinfo) (i k : Nat)
    (classes cat : List AiomixerClass) (d : MixerDevinfo) (t : Int),
    pass2 classes i rest = some cat →
    rest.get? k = some d → is_control_desc d = true →
    aiomixer_get_class classes d.mixer_class = none →
    t = ((i + k : Nat) : Int) →
    (∀ cl ∈ classes, ∀ ctl ∈ cl.controls, ctl.dev ≠ t) →
    ∀ cl ∈ cat, ∀ ctl ∈ cl.controls, ctl.dev ≠ t := by
  intro rest
  induction rest with
  | nil =>
    intro i k classes cat d t _ hget
    simp at hget
  | cons d0 rest2 ih =>
    intro i k classes cat d t h hget hctrl hnone ht hinv
    unfold pass2 at h
    split at h
    · cases h
    · rename_i classes2 hstep
      cases k with
      | zero =>
        have hd : d0 = d := by simpa using hget
        subst hd
        have hskip : classes2 = classes := by
          unfold pass2_step at hstep
          unfold is_control_desc at hctrl
          split at hstep
          · rename_i hu
            rw [hu] at hctrl
            cases hctrl
          all_goals
            unfold add_control at hstep
            rw [hnone] at hstep
            exact (Option.some.inj hstep).symm
        rw [hskip] at h
        apply pass2_dev_ne rest2 (i + 1) classes cat t h ?_ hinv
        intro j hj
        rw [ht]
        intro hc
        have := Int.ofNat.inj hc
        omega
      | succ k2 =>
        have hget2 : rest2.get? k2 = some d := by simpa using hget
        rcases pass2_step_spec classes i d0 classes2 hstep with he | ⟨c, cl0, hdev, hg, hlen, he⟩
        · apply ih (i + 1) k2 classes2 cat d t h hget2 hctrl ?_ ?_ ?_
          · rw [he]; exact hnone
          · rw [ht]; congr 1; omega
          · rw [he]; exact hinv
        · apply ih (i + 1) k2 classes2 cat d t h hget2 hctrl ?_ ?_ ?_
          · apply get_class_none_congr classes _ d.mixer_class ?_ hnone
            rw [he, append_to_class_map_id]
          · rw [ht]; congr 1; omega
          · rw [he]
            apply append_dev_ne t classes d0.mixer_class c ?_ hinv
            rw [hdev, ht]
            intro hc
            have := Int.ofNat.inj hc.symm
            omega

/-- C5: the claim fails on the code.  On `c5_input` — a class followed by
an enum control whose `prev` (5) names a device index with no control —
`find_root_control` calls `aiomixer_get_control(x, 5)`, gets NULL, and the
loop condition `ctrl->prev != -1` dereferences it: catalog construction is
fatal (`none` in this model) instead of a chain traversal that terminates
without touching a missing control.  The dead `prev_ctrl != NULL` check in
`aiomixer_devinfo` shows the intended behaviour was to tolerate a missing
parent. -/
theorem c5_dangling_parent_is_fatal :
    aiomixer_devinfo c5_input = none
    ∧ aiomixer_get_control (pass1 [] c5_input) 5 = none := by
  exact ⟨by rfl, by rfl⟩

/-- C7 counterexample: on `c7_input` — a value control whose `prev` (9)
resolves to no control — catalog construction does not complete: the
`find_root_control` walk dereferences a NULL lookup result (`none` here),
so "construction completes without fatal error" fails for this descriptor
sequence. -/
theorem c7_counterexample : aiomixer_devinfo c7_input = none := by rfl

/-- C7 (amended): for every descriptor sequence on which catalog
construction completes (it can die on a dangling parent reference, see
C5), the catalog keeps exactly the classes of the first pass (at most
`MAX_CLASSES = 16` of them), every class holds at most
`MAX_CONTROLS = 64` controls (descriptors in excess are silently
dropped), and a control descriptor whose class id resolves to no class
contributes no control to the catalog. -/
theorem c7_catalog_invariants (descs : List MixerDevinfo) (cat : List AiomixerClass)
    (h : aiomixer_devinfo descs = some cat) :
    cat.map (fun cl => cl.id) = (pass1 [] descs).map (fun cl => cl.id)
    ∧ cat.length ≤ 16
    ∧ (∀ cl ∈ cat, cl.controls.length ≤ 64)
    ∧ (∀ (k : Nat) (d : MixerDevinfo), descs.get? k = some d →
        is_control_desc d = true →
        aiomixer_get_class (pass1 [] descs) d.mixer_class = none →
        ∀ cl ∈ cat, ∀ ctl ∈ cl.controls, ctl.dev ≠ (k : Int)) := by
  unfold aiomixer_devinfo at h
  have hids := pass2_ids descs 0 (pass1 [] descs) cat h
  have hnil : ∀ cl ∈ pass1 ([] : List AiomixerClass) descs, cl.controls = [] :=
    pass1_controls_nil descs [] (by intro cl hcl; cases hcl)
  refine ⟨hids, ?_, ?_, ?_⟩
  · have h1 : cat.length = (pass1 [] descs).length := by
      have h2 := congrArg List.length hids
      simpa using h2
    rw [h1]
    exact pass1_length_le descs [] (by simp)
  · apply pass2_len descs 0 _ cat h
    intro cl hcl
    rw [hnil cl hcl]
    simp
  · intro k d hget hctrl hnone
    apply pass2_unresolvable descs 0 k _ cat d (k : Int) h hget hctrl hnone
      (by push_cast; ring)
    intro cl hcl ctl hctl
    rw [hnil cl hcl] at hctl
    cases hctl

theorem c7_witness : c7_witness_cat.length ≤ 16 :=
  (c7_catalog_invariants c7_witness_input c7_witness_cat (by rfl)).2.1
